import Mathlib

/-!
Shallow embedding of the worker-pool / task-dispatch subsystem of
`src/model_pool.py` (SenseVoice ASR docker repository).

Conventions of the embedding:
* timestamps (`time.time()`) are modelled as natural numbers supplied by the
  caller (`now`); every call site that reads the clock takes a `now` argument;
* the `model` field of an instance (an `AutoModel` or `None`) is modelled by
  the boolean `modelLoaded` (`true` iff `model is not None`);
* `asyncio.Future` result channels are modelled by a log of resolutions: the
  pair `(taskId, r)` is appended when `set_result` / `set_exception` runs;
* task ids (`uuid.uuid4()`) are modelled by a fresh-counter `next_id`, which
  captures their uniqueness;
* the external inference call is an oracle: a boolean per attempt saying
  whether `model.generate` succeeds, plus the text it would return.
-/

namespace ModelPool

/-- Status of a model instance (`InstanceStatus` enum in the source). -/
inductive InstanceStatus
  | idle
  | busy
  | loading
  | error
deriving DecidableEq, Repr, Fintype

/-- One model instance (`ModelInstance` dataclass). `modelLoaded` stands for
`model is not None`. -/
structure ModelInstance where
  instance_id : Nat
  modelLoaded : Bool
  device : String
  status : InstanceStatus
  last_used : Nat
  request_count : Nat
  error_count : Nat
  load_time : Nat
deriving DecidableEq, Repr

/-- `ModelInstance.mark_busy`: set status to BUSY, bump `request_count`,
update `last_used` to the current time. -/
def mark_busy (now : Nat) (inst : ModelInstance) : ModelInstance :=
  { inst with
      status := InstanceStatus.busy
      request_count := inst.request_count + 1
      last_used := now }

/-- `ModelInstance.mark_idle`: set status to IDLE, update `last_used`. -/
def mark_idle (now : Nat) (inst : ModelInstance) : ModelInstance :=
  { inst with status := InstanceStatus.idle, last_used := now }

/-- The pool-level mutable state of `ModelPool` relevant to the registry:
the instance list and the three load-balancing counters. -/
structure PoolState where
  instances : List ModelInstance
  num_instances : Nat
  total_requests : Nat
  successful_requests : Nat
  failed_requests : Nat
deriving DecidableEq, Repr

/-- The instance list built by `ModelPool.__init__`: `num_instances` fresh
instances, ids `0..n-1`, device from the devices list, status LOADING. -/
def initInstances (n : Nat) (devices : List String) : List ModelInstance :=
  (List.range n).map fun i =>
    { instance_id := i
      modelLoaded := false
      device := devices.getD i "cpu"
      status := InstanceStatus.loading
      last_used := 0
      request_count := 0
      error_count := 0
      load_time := 0 }

/-- `ModelPool.__init__`: pool with `n` loading instances and zeroed
counters. -/
def initPool (n : Nat) (devices : List String) : PoolState :=
  { instances := initInstances n devices
    num_instances := n
    total_requests := 0
    successful_requests := 0
    failed_requests := 0 }

/-- Selection performed by `get_idle_instance`: Python's
`min(idle_instances, key=lambda x: x.last_used)` over the references held in
`self.instances`, i.e. the FIRST idle instance attaining the minimal
`last_used` (Python `min` keeps the earliest element on ties). Returns the
position in the instance list together with the instance. -/
def selectIdle : List ModelInstance → Option (Nat × ModelInstance)
  | [] => none
  | inst :: rest =>
    match selectIdle rest with
    | none =>
      if inst.status = InstanceStatus.idle then some (0, inst) else none
    | some (j, best) =>
      if inst.status = InstanceStatus.idle then
        if best.last_used < inst.last_used then some (j + 1, best)
        else some (0, inst)
      else some (j + 1, best)

/-- `ModelPool.get_idle_instance`: pick the least-recently-used idle
instance; if none, return `none` and leave the pool unchanged; otherwise
`mark_busy` it in place and bump `total_requests`. -/
def get_idle_instance (now : Nat) (p : PoolState) :
    Option ModelInstance × PoolState :=
  match selectIdle p.instances with
  | none => (none, p)
  | some (i, inst) =>
    let inst' := mark_busy now inst
    (some inst',
      { p with
          instances := p.instances.set i inst'
          total_requests := p.total_requests + 1 })

/-- Body of the `for`/`break` loop of `release_instance`: `mark_idle` the
first instance whose `instance_id` matches; `none` when no instance
matches. -/
def releaseAux (now : Nat) (id : Nat) :
    List ModelInstance → Option (List ModelInstance)
  | [] => none
  | inst :: rest =>
    if inst.instance_id = id then some (mark_idle now inst :: rest)
    else (releaseAux now id rest).map (inst :: ·)

/-- `ModelPool.release_instance`: mark the first matching instance idle and
bump `successful_requests`; a no-op when the id is unknown. -/
def release_instance (now : Nat) (id : Nat) (p : PoolState) : PoolState :=
  match releaseAux now id p.instances with
  | some l => { p with
      instances := l
      successful_requests := p.successful_requests + 1 }
  | none => p

/-- Body of the `for`/`break` loop of `handle_instance_error`: set the first
matching instance to ERROR and bump its `error_count`. -/
def handleErrorAux (id : Nat) :
    List ModelInstance → Option (List ModelInstance)
  | [] => none
  | inst :: rest =>
    if inst.instance_id = id then
      some ({ inst with
                status := InstanceStatus.error
                error_count := inst.error_count + 1 } :: rest)
    else (handleErrorAux id rest).map (inst :: ·)

/-- `ModelPool.handle_instance_error`: mark the first matching instance
ERROR, bump its error counter and the pool `failed_requests`; a no-op when
the id is unknown. -/
def handle_instance_error (id : Nat) (p : PoolState) : PoolState :=
  match handleErrorAux id p.instances with
  | some l => { p with
      instances := l
      failed_requests := p.failed_requests + 1 }
  | none => p

/-- The pool-wide fields of the dictionary built by
`ModelPool.get_instance_stats` (the per-instance sub-dictionaries are copies
of `ModelInstance` fields and are not repeated here). `success_rate` is the
Python float division `successful_requests / max(1, total_requests)`,
modelled over the rationals. -/
structure InstanceStats where
  total_instances : Nat
  total_requests : Nat
  successful_requests : Nat
  failed_requests : Nat
  success_rate : ℚ
deriving Repr

/-- `ModelPool.get_instance_stats` (pool-wide part). -/
def get_instance_stats (p : PoolState) : InstanceStats :=
  { total_instances := p.num_instances
    total_requests := p.total_requests
    successful_requests := p.successful_requests
    failed_requests := p.failed_requests
    success_rate :=
      (p.successful_requests : ℚ) / (max 1 p.total_requests : Nat) }

/-- Number of instances currently in a given status, as computed by the
`sum(1 for inst in self.instances if inst.status == status)` line of
`get_pool_status`. -/
def statusCount (p : PoolState) (st : InstanceStatus) : Nat :=
  (p.instances.filter fun inst => inst.status = st).length

/-- The dictionary returned by `ModelPool.get_pool_status`:
`status_distribution` is the per-status count map (keyed by the four enum
values), `available_instances` is `status_counts.get("idle", 0)`. -/
structure PoolStatus where
  pool_size : Nat
  idle_count : Nat
  busy_count : Nat
  loading_count : Nat
  error_count : Nat
  available_instances : Nat
deriving Repr

/-- `ModelPool.get_pool_status`. -/
def get_pool_status (p : PoolState) : PoolStatus :=
  { pool_size := p.num_instances
    idle_count := statusCount p InstanceStatus.idle
    busy_count := statusCount p InstanceStatus.busy
    loading_count := statusCount p InstanceStatus.loading
    error_count := statusCount p InstanceStatus.error
    available_instances := statusCount p InstanceStatus.idle }

/-- Per-instance record produced by `check_instance` inside
`ModelPool.health_check`: healthy exactly when `instance.model is not None`
(the source never consults `instance.status` for the verdict and performs no
inference call). -/
structure HealthDetail where
  instance_id : Nat
  healthy : Bool
deriving DecidableEq, Repr

/-- `check_instance` of `ModelPool.health_check`. -/
def check_instance (inst : ModelInstance) : HealthDetail :=
  { instance_id := inst.instance_id, healthy := inst.modelLoaded }

/-- The summary dictionary returned by `ModelPool.health_check`. -/
structure HealthReport where
  total_instances : Nat
  healthy_instances : Nat
  unhealthy_instances : Nat
  health_details : List HealthDetail
deriving Repr

/-- `ModelPool.health_check`: gather per-instance details, count the healthy
ones, report `unhealthy = num_instances - healthy`. -/
def health_check (p : PoolState) : HealthReport :=
  let results := p.instances.map check_instance
  let healthy_count := (results.filter fun r => r.healthy).length
  { total_instances := p.num_instances
    healthy_instances := healthy_count
    unhealthy_instances := p.num_instances - healthy_count
    health_details := results }

/-- Effect of `ModelPool.shutdown` on one instance: when a model is loaded,
drop it (`del instance.model; instance.model = None`) and set the status to
ERROR; instances with no model are left untouched. -/
def shutdownInstance (inst : ModelInstance) : ModelInstance :=
  if inst.modelLoaded then
    { inst with modelLoaded := false, status := InstanceStatus.error }
  else inst

/-- `ModelPool.shutdown`: release every loaded model. The task queue and the
pending futures are not touched by this method. -/
def shutdownPool (p : PoolState) : PoolState :=
  { p with instances := p.instances.map shutdownInstance }

/-! ### Queue, futures and the dispatcher -/

/-- Possible resolutions of a task future. `queueFull` is the
`RuntimeError` set by `enqueue_task` on rejection; `success` is
`set_result` in `_process_queue`; `procFailure` is the `set_exception`
branch there; `poolShutdown` is the pool-shutdown error named by the spec
(the source never produces it — the constructor exists so that statements
about it can be made). -/
inductive Resolution
  | success (text : String)
  | queueFull
  | procFailure
  | poolShutdown
deriving DecidableEq, Repr

/-- State of the queueing layer of `ModelPool`: the bounded FIFO
`task_queue` (task ids in admission order), the capacity, the fresh-id
counter standing for `uuid.uuid4()`, the resolution log of all futures, and
the `is_processing_queue` flag. A task id is pending exactly when it is in
`task_queue`; a future is resolved exactly when its id appears in
`resolutions`. -/
structure SysState where
  pool : PoolState
  queue_capacity : Nat
  task_queue : List Nat
  next_id : Nat
  resolutions : List (Nat × Resolution)
  is_processing_queue : Bool
deriving Repr

/-- Ids whose future has been resolved. -/
def resolvedIds (s : SysState) : List Nat :=
  s.resolutions.map Prod.fst

/-- `ModelPool.enqueue_task`: create a fresh task; if
`len(task_queue) >= queue_capacity`, resolve its future with the queue-full
error and leave the queue unchanged; otherwise append it to the tail.
Either way the processor is started when not already running. Returns the
new state and whether the task was admitted. -/
def enqueue_task (s : SysState) : SysState × Bool :=
  let id := s.next_id
  if s.task_queue.length ≥ s.queue_capacity then
    ({ s with
        next_id := id + 1
        resolutions := s.resolutions ++ [(id, Resolution.queueFull)]
        is_processing_queue := true }, false)
  else
    ({ s with
        next_id := id + 1
        task_queue := s.task_queue ++ [id]
        is_processing_queue := true }, true)

/-- One full iteration of the `while True` loop of
`ModelPool._process_queue` in which a task is dequeued and its processing
resolves: `popleft` the head and resolve its future — `set_result` when
`_process_queued_task` returns, `set_exception` when it raises. A no-op on
an empty queue (the loop just sleeps). -/
def dispatchOne (ok : Bool) (s : SysState) : SysState :=
  match s.task_queue with
  | [] => s
  | id :: rest =>
    { s with
        task_queue := rest
        resolutions := s.resolutions ++
          [(id, if ok then Resolution.success "" else Resolution.procFailure)] }

/-- Outcome of one iteration of the `while True` retry loop of
`ModelPool._process_queued_task`. -/
inductive AttemptResult
  | noInstance (p : PoolState)
  | failed (instId : Nat) (p : PoolState)
  | succeeded (text : String) (p : PoolState)
deriving Repr

/-- One iteration of the retry loop of `_process_queued_task`: probe
`get_idle_instance`; on `None` sleep and go round again; otherwise run the
inference (outcome given by the oracle boolean `inferOk`, result text by
`text`) — on success `release_instance` and return the text, on failure
`handle_instance_error` and go round again. The release happens at a later
clock tick than the acquisition. -/
def attempt (now : Nat) (inferOk : Bool) (text : String) (p : PoolState) :
    AttemptResult :=
  match get_idle_instance now p with
  | (none, p') => AttemptResult.noInstance p'
  | (some inst, p') =>
    if inferOk then
      AttemptResult.succeeded text
        (release_instance (now + 1) inst.instance_id p')
    else
      AttemptResult.failed inst.instance_id
        (handle_instance_error inst.instance_id p')

/-- An observable event of the dispatcher: one `get_idle_instance` probe of
the acquire loop on behalf of a task, or the resolution of a task's
future. -/
inductive DispatchEvent
  | attemptEv (taskId : Nat)
  | resolveEv (taskId : Nat)
deriving DecidableEq, Repr

/-- Result of running the retry loop of `_process_queued_task` for a finite
number of iterations: the resolution text when the loop returned, the pool
state, the emitted events, and the advanced clock. `result = none` means the
loop was still running when the oracle script ran out (the source loop has
no retry bound and runs until some inference succeeds). -/
structure LoopResult where
  result : Option String
  pool : PoolState
  trace : List DispatchEvent
  clock : Nat
deriving Repr

/-- `ModelPool._process_queued_task` for task `taskId`, driven by the
oracle script (one boolean per loop iteration; the boolean is consulted
only when an instance was acquired). -/
def processQueuedTask (taskId : Nat) (text : String) :
    List Bool → Nat → PoolState → LoopResult
  | [], now, p => { result := none, pool := p, trace := [], clock := now }
  | inferOk :: rest, now, p =>
    match attempt now inferOk text p with
    | AttemptResult.noInstance p' =>
      let r := processQueuedTask taskId text rest (now + 2) p'
      { r with trace := DispatchEvent.attemptEv taskId :: r.trace }
    | AttemptResult.failed _ p' =>
      let r := processQueuedTask taskId text rest (now + 2) p'
      { r with trace := DispatchEvent.attemptEv taskId :: r.trace }
    | AttemptResult.succeeded t p' =>
      { result := some t
        pool := p'
        trace := [DispatchEvent.attemptEv taskId]
        clock := now + 2 }

/-- Result of running the dispatcher (`_process_queue`) over a queue of
admitted tasks: final pool, the full event trace, and the resolutions
performed (in the order they were performed). -/
structure QueueRunResult where
  pool : PoolState
  trace : List DispatchEvent
  resolved : List (Nat × Resolution)
deriving Repr

/-- `ModelPool._process_queue` over the queue contents: pop the head task,
run its full `_process_queued_task` retry loop to resolution
(`await` returns only then), `set_result` its future, and only then turn to
the next task. When a task's loop is still retrying at the end of its
oracle script, the dispatcher is still inside that `await`: no later task
is started. `scripts` gives each task its per-iteration inference oracle,
`texts` its inference result text. -/
def processQueue (scripts : Nat → List Bool) (texts : Nat → String) :
    List Nat → Nat → PoolState → QueueRunResult
  | [], _, p => { pool := p, trace := [], resolved := [] }
  | id :: rest, now, p =>
    let r := processQueuedTask id (texts id) (scripts id) now p
    match r.result with
    | some t =>
      let q := processQueue scripts texts rest r.clock r.pool
      { pool := q.pool
        trace := r.trace ++ DispatchEvent.resolveEv id :: q.trace
        resolved := (id, Resolution.success t) :: q.resolved }
    | none => { pool := r.pool, trace := r.trace, resolved := [] }

/-- The registry operations of the spec (`Acquire`, `Release`,
`MarkFailed`), as implemented by `get_idle_instance`, `release_instance`
and `handle_instance_error`. -/
inductive RegOp
  | acquire (now : Nat)
  | release (now : Nat) (id : Nat)
  | markFailed (id : Nat)
deriving DecidableEq, Repr

/-- Apply one registry operation to the pool. -/
def applyRegOp (p : PoolState) : RegOp → PoolState
  | RegOp.acquire now => (get_idle_instance now p).2
  | RegOp.release now id => release_instance now id p
  | RegOp.markFailed id => handle_instance_error id p

/-- `ModelPool.stop_queue_processor`: cancel the processor coroutine. Its
`CancelledError` handler only logs and clears `is_processing_queue`; no
queued future is resolved. -/
def stop_queue_processor (s : SysState) : SysState :=
  { s with is_processing_queue := false }

/-- `ModelPool.shutdown` at the system level: it only releases the models in
the pool (see `shutdownPool`); queue and futures are untouched. -/
def shutdownSys (s : SysState) : SysState :=
  { s with pool := shutdownPool s.pool }

/-- An admission or dispatch operation at the system level: one
`enqueue_task` call, or one dequeue-and-resolve iteration of
`_process_queue`. -/
inductive SysOp
  | enq
  | disp (ok : Bool)
deriving DecidableEq, Repr

/-- Apply one system operation. -/
def applySysOp (s : SysState) : SysOp → SysState
  | SysOp.enq => (enqueue_task s).1
  | SysOp.disp ok => dispatchOne ok s

/-- Run a sequence of system operations. -/
def runOps : SysState → List SysOp → SysState
  | s, [] => s
  | s, op :: ops => runOps (applySysOp s op) ops

/-- The freshly constructed system: pool from `__init__`, empty queue,
no futures yet. The source fixes `queue_capacity = 5000`; it is kept as a
parameter here so boundary statements can quantify over it. -/
def initSys (n : Nat) (devices : List String) (cap : Nat) : SysState :=
  { pool := initPool n devices
    queue_capacity := cap
    task_queue := []
    next_id := 0
    resolutions := []
    is_processing_queue := false }

/-- Status of the instance stored at position `i` of the pool's instance
list. -/
def statusAt (p : PoolState) (i : Nat) : Option InstanceStatus :=
  (p.instances.get? i).map (fun inst => inst.status)

/-- Status of the first instance whose `instance_id` matches — the instance
the `for`/`break` loops of `release_instance` and `handle_instance_error`
operate on. -/
def firstMatchStatus (id : Nat) : List ModelInstance → Option InstanceStatus
  | [] => none
  | inst :: rest =>
    if inst.instance_id = id then some inst.status
    else firstMatchStatus id rest

/-- The dispatcher's usage discipline for registry operations: `Release`
and `MarkFailed` are only invoked on an id whose (first) matching instance
is currently Busy — the dispatcher calls them only on the instance it has
just acquired. `Acquire` is unrestricted. -/
def opGuard (p : PoolState) : RegOp → Prop
  | RegOp.acquire _ => True
  | RegOp.release _ id =>
    ∀ st, firstMatchStatus id p.instances = some st →
      st = InstanceStatus.busy
  | RegOp.markFailed id =>
    ∀ st, firstMatchStatus id p.instances = some st →
      st = InstanceStatus.busy

/-- A system state with five admitted tasks (ids 0–4), none yet dispatched
and none resolved — the shutdown scenario of the spec. -/
def sFiveQueued : SysState :=
  { pool := initPool 1 ["cpu"]
    queue_capacity := 5000
    task_queue := [0, 1, 2, 3, 4]
    next_id := 5
    resolutions := []
    is_processing_queue := true }

/-- A pool whose single instance has its model loaded but sits in ERROR
status — exactly the state `handle_instance_error` leaves an instance in
after a failed inference (the model object is not dropped). -/
def pErrLoaded : PoolState :=
  { instances := [{ instance_id := 0
                    modelLoaded := true
                    device := "cpu"
                    status := InstanceStatus.error
                    last_used := 3
                    request_count := 1
                    error_count := 1
                    load_time := 2 }]
    num_instances := 1
    total_requests := 1
    successful_requests := 0
    failed_requests := 1 }

/-- A pool whose single instance is in ERROR status with no model. -/
def pErrBare : PoolState :=
  { instances := [{ instance_id := 0
                    modelLoaded := false
                    device := "cpu"
                    status := InstanceStatus.error
                    last_used := 0
                    request_count := 0
                    error_count := 1
                    load_time := 0 }]
    num_instances := 1
    total_requests := 0
    successful_requests := 0
    failed_requests := 0 }

/-- A pool whose single instance is Busy — the state in which the
dispatcher invokes `Release` or `MarkFailed`. -/
def pBusyOne : PoolState :=
  { instances := [{ instance_id := 0
                    modelLoaded := true
                    device := "cpu"
                    status := InstanceStatus.busy
                    last_used := 4
                    request_count := 1
                    error_count := 0
                    load_time := 2 }]
    num_instances := 1
    total_requests := 1
    successful_requests := 0
    failed_requests := 0 }

/-- Book-keeping invariant of the queueing layer: resolved ids are
distinct, queued ids are distinct, no queued task is resolved, and every id
ever issued is below the fresh counter. -/
def SysInv (s : SysState) : Prop :=
  (resolvedIds s).Nodup ∧
  s.task_queue.Nodup ∧
  (∀ id ∈ s.task_queue, id ∉ resolvedIds s) ∧
  (∀ id ∈ s.task_queue, id < s.next_id) ∧
  (∀ id ∈ resolvedIds s, id < s.next_id)

/-- The dispatcher's trace discipline with respect to an admitted queue:
all acquire attempts belong to the head task first; if the head task
resolves, its resolution event follows and the remainder of the trace
belongs, recursively, to the rest of the queue; an unresolved head leaves
only its own attempts — no event of a later task ever appears before the
resolution of every earlier task. The empty trace is allowed for any
queue. -/
inductive SerialFIFO : List Nat → List DispatchEvent → Prop
  | empty (q : List Nat) : SerialFIFO q []
  | unfinished (id : Nat) (rest : List Nat) (m : Nat) :
      SerialFIFO (id :: rest)
        (List.replicate m (DispatchEvent.attemptEv id))
  | step (id : Nat) (rest : List Nat) (m : Nat)
      (tr : List DispatchEvent) (h : SerialFIFO rest tr) :
      SerialFIFO (id :: rest)
        (List.replicate m (DispatchEvent.attemptEv id) ++
          DispatchEvent.resolveEv id :: tr)

/-- Instance A of the spec's LRU example: idle, `last_used = 10`. -/
def instA : ModelInstance :=
  { instance_id := 0
    modelLoaded := true
    device := "cpu"
    status := InstanceStatus.idle
    last_used := 10
    request_count := 0
    error_count := 0
    load_time := 1 }

/-- Instance B of the spec's LRU example: idle, `last_used = 5`. -/
def instB : ModelInstance :=
  { instance_id := 1
    modelLoaded := true
    device := "cpu"
    status := InstanceStatus.idle
    last_used := 5
    request_count := 0
    error_count := 0
    load_time := 1 }

/-- The spec's LRU example pool: A and B both idle. -/
def pAB : PoolState :=
  { instances := [instA, instB]
    num_instances := 2
    total_requests := 0
    successful_requests := 0
    failed_requests := 0 }

/-- A two-instance pool with exactly one idle instance (A busy, B idle). -/
def pABusy : PoolState :=
  { instances := [{ instA with status := InstanceStatus.busy }, instB]
    num_instances := 2
    total_requests := 1
    successful_requests := 0
    failed_requests := 0 }

/-! ### Helper lemmas -/

/-- Partitioning the instance list by the four statuses accounts for every
instance exactly once. -/
theorem statusCount_partition (l : List ModelInstance) :
    (l.filter fun i => i.status = InstanceStatus.idle).length +
      (l.filter fun i => i.status = InstanceStatus.busy).length +
      (l.filter fun i => i.status = InstanceStatus.loading).length +
      (l.filter fun i => i.status = InstanceStatus.error).length =
      l.length := by
  induction l with
  | nil => simp
  | cons a l ih =>
    cases h : a.status <;>
      simp [List.filter_cons, h, Nat.add_assoc, Nat.add_comm, Nat.add_left_comm] <;>
      omega

/-! ### Claims -/

/-- C10: the statistics snapshot is total and never divides by zero — for
every pool state `get_instance_stats` computes `success_rate` as
`successful_requests / max(1, total_requests)`, whose denominator is
positive, and the rate is 0 when no request has been made. -/
theorem stats_success_rate_total (p : PoolState) :
    (0 : ℚ) < ((max 1 p.total_requests : Nat) : ℚ) ∧
    (get_instance_stats p).success_rate =
      (p.successful_requests : ℚ) / ((max 1 p.total_requests : Nat) : ℚ) ∧
    (p.total_requests = 0 → p.successful_requests = 0 →
      (get_instance_stats p).success_rate = 0) := by
  refine ⟨?_, rfl, ?_⟩
  · have : 1 ≤ max 1 p.total_requests := le_max_left _ _
    exact_mod_cast Nat.lt_of_lt_of_le Nat.zero_lt_one this
  · intro h1 h2
    simp [get_instance_stats, h1, h2]

/-- C10 witness: on the freshly constructed pool (no request made yet) the
success rate is a well-defined 0. -/
theorem stats_success_rate_total_witness :
    (get_instance_stats (initPool 2 ["cpu", "cpu"])).success_rate = 0 :=
  (stats_success_rate_total (initPool 2 ["cpu", "cpu"])).2.2 rfl rfl

/-- C9: the pool-status snapshot is internally consistent — the per-status
counts over Idle, Busy, Loading, Error sum to the pool size, and
`available_instances` equals the number of instances whose status is Idle. -/
theorem pool_status_consistent (p : PoolState)
    (h : p.num_instances = p.instances.length) :
    (get_pool_status p).idle_count + (get_pool_status p).busy_count +
        (get_pool_status p).loading_count + (get_pool_status p).error_count =
      (get_pool_status p).pool_size ∧
    (get_pool_status p).available_instances =
      (p.instances.filter fun inst =>
        inst.status = InstanceStatus.idle).length := by
  constructor
  · simpa [get_pool_status, statusCount, h] using statusCount_partition p.instances
  · rfl

/-- C9 witness: the snapshot of a concrete 3-instance pool is consistent. -/
theorem pool_status_consistent_witness :
    (get_pool_status (initPool 3 ["cpu", "cpu", "cpu"])).idle_count +
        (get_pool_status (initPool 3 ["cpu", "cpu", "cpu"])).busy_count +
        (get_pool_status (initPool 3 ["cpu", "cpu", "cpu"])).loading_count +
        (get_pool_status (initPool 3 ["cpu", "cpu", "cpu"])).error_count =
      (get_pool_status (initPool 3 ["cpu", "cpu", "cpu"])).pool_size :=
  (pool_status_consistent (initPool 3 ["cpu", "cpu", "cpu"]) (by decide)).1

/-- C2: `enqueue_task` admits (appends to the tail) exactly when the queue
length is strictly below capacity; at or above capacity it resolves the
fresh task's future with the queue-full error, leaves the queue unchanged,
and the rejected task is never visible to the dispatcher. -/
theorem enqueue_task_boundary (s : SysState) :
    ((enqueue_task s).2 = true ↔ s.task_queue.length < s.queue_capacity) ∧
    (enqueue_task s).1.task_queue =
      (if s.task_queue.length < s.queue_capacity
        then s.task_queue ++ [s.next_id] else s.task_queue) ∧
    (enqueue_task s).1.resolutions =
      (if s.task_queue.length < s.queue_capacity
        then s.resolutions
        else s.resolutions ++ [(s.next_id, Resolution.queueFull)]) ∧
    (s.next_id ∉ s.task_queue → (enqueue_task s).2 = false →
      s.next_id ∉ (enqueue_task s).1.task_queue) := by
  by_cases h : s.task_queue.length < s.queue_capacity
  · have h' : ¬ s.task_queue.length ≥ s.queue_capacity := by omega
    refine ⟨by simp [enqueue_task, h', h], by simp [enqueue_task, h', h],
      by simp [enqueue_task, h', h], ?_⟩
    intro _ hfalse
    simp [enqueue_task, h'] at hfalse
  · have h' : s.task_queue.length ≥ s.queue_capacity := by omega
    refine ⟨by simp [enqueue_task, h'], by simp [enqueue_task, h', h],
      by simp [enqueue_task, h', h], ?_⟩
    intro hni _
    simpa [enqueue_task, h'] using hni

/-- C2 witness: at capacity 0 the queue is full, a fresh enqueue is
rejected and the task id never enters the queue. -/
theorem enqueue_task_boundary_witness :
    0 ∉ (enqueue_task (initSys 1 ["cpu"] 0)).1.task_queue :=
  (enqueue_task_boundary (initSys 1 ["cpu"] 0)).2.2.2 (by decide) (by decide)

/-- C1 counterexample: with five tasks queued (ids 0–4), none dispatched,
invoking pool shutdown and stopping the queue processor resolves none of
them with the pool-shutdown error — the resolution log stays empty, so the
claim that all five resolve with `PoolShutdownError` fails. -/
theorem shutdown_resolves_queue_cex :
    ¬ (∀ id ∈ sFiveQueued.task_queue,
        (id, Resolution.poolShutdown) ∈
          (stop_queue_processor (shutdownSys sFiveQueued)).resolutions) := by
  intro h
  have h0 := h 0 (by decide)
  simp [stop_queue_processor, shutdownSys, sFiveQueued] at h0

/-- C1 (amended): shutdown plus stopping the queue processor drops every
loaded model (marking those instances ERROR) but resolves no queued task:
the queue and the resolution log are unchanged, so all pending tasks remain
pending — none is resolved with success and none with a pool-shutdown
error. -/
theorem shutdown_leaves_tasks_unresolved (s : SysState) :
    (stop_queue_processor (shutdownSys s)).task_queue = s.task_queue ∧
    (stop_queue_processor (shutdownSys s)).resolutions = s.resolutions ∧
    (stop_queue_processor (shutdownSys s)).pool.instances =
      s.pool.instances.map shutdownInstance ∧
    ∀ inst ∈ (stop_queue_processor (shutdownSys s)).pool.instances,
      inst.modelLoaded = false ∧
        (inst.status = InstanceStatus.error ∨ inst ∈ s.pool.instances) := by
  refine ⟨rfl, rfl, rfl, ?_⟩
  intro inst hmem
  rcases List.mem_map.mp hmem with ⟨x, hx, rfl⟩
  by_cases hml : x.modelLoaded
  · simp [shutdownInstance, hml]
  · simp only [Bool.not_eq_true] at hml
    simp [shutdownInstance, hml]
    exact Or.inr hx

/-- C1 witness: on the concrete five-task state, shutdown leaves the queue
and the (empty) resolution log untouched, and the sole instance (model
never loaded) is returned unchanged by the per-instance sweep. -/
theorem shutdown_leaves_tasks_unresolved_witness :
    (stop_queue_processor (shutdownSys sFiveQueued)).task_queue =
      [0, 1, 2, 3, 4] ∧
    (stop_queue_processor (shutdownSys sFiveQueued)).resolutions = [] ∧
    ({ instance_id := 0
       modelLoaded := false
       device := "cpu"
       status := InstanceStatus.loading
       last_used := 0
       request_count := 0
       error_count := 0
       load_time := 0 } : ModelInstance).modelLoaded = false := by
  have h := shutdown_leaves_tasks_unresolved sFiveQueued
  refine ⟨h.1, h.2.1, ?_⟩
  exact (h.2.2.2 _ (by decide)).1

/-- C7 counterexample: on a pool whose single instance has a loaded model
but sits in ERROR status (the state an instance is left in after a failed
inference), `health_check` reports 1 healthy instance, while the claim's
predicate — completed loading and not Error — is satisfied by 0
instances. -/
theorem health_check_status_cex :
    (health_check pErrLoaded).healthy_instances = 1 ∧
    (pErrLoaded.instances.filter fun inst =>
        inst.status ≠ InstanceStatus.loading ∧
        inst.status ≠ InstanceStatus.error).length = 0 := by
  decide

/-- C7 (amended): `health_check` reports an instance healthy iff its model
is loaded (`model is not None`), irrespective of its status; the healthy
count equals the number of instances with a loaded model, the unhealthy
count is the pool size minus the healthy count, and the check performs no
inference call (it is a pure read of the registry). -/
theorem health_check_model_loaded (p : PoolState) :
    (health_check p).healthy_instances =
      (p.instances.filter fun inst => inst.modelLoaded).length ∧
    (health_check p).unhealthy_instances =
      p.num_instances - (health_check p).healthy_instances ∧
    (health_check p).total_instances = p.num_instances ∧
    (health_check p).health_details = p.instances.map check_instance := by
  refine ⟨?_, rfl, rfl, rfl⟩
  show ((p.instances.map check_instance).filter fun r => r.healthy).length =
    (p.instances.filter fun inst => inst.modelLoaded).length
  rw [List.filter_map, List.length_map]
  rfl

/-- Per-position effect of the `release_instance` loop body: every position
is either untouched, or holds the first id-match, whose status is the one
`firstMatchStatus` reports, and is replaced by its `mark_idle`. -/
theorem releaseAux_get? (now id : Nat) (l l' : List ModelInstance)
    (h : releaseAux now id l = some l') (i : Nat) :
    l'.get? i = l.get? i ∨
    ∃ inst, l.get? i = some inst ∧ inst.instance_id = id ∧
      firstMatchStatus id l = some inst.status ∧
      l'.get? i = some (mark_idle now inst) := by
  induction l generalizing l' i with
  | nil => simp [releaseAux] at h
  | cons a rest ih =>
    by_cases ha : a.instance_id = id
    · rw [releaseAux, if_pos ha] at h
      cases h
      cases i with
      | zero =>
        exact Or.inr ⟨a, rfl, ha, by rw [firstMatchStatus, if_pos ha], rfl⟩
      | succ n => exact Or.inl rfl
    · rw [releaseAux, if_neg ha] at h
      cases hr : releaseAux now id rest with
      | none => rw [hr] at h; simp at h
      | some l'' =>
        rw [hr] at h
        simp only [Option.map_some'] at h
        cases h
        cases i with
        | zero => exact Or.inl rfl
        | succ n =>
          rcases ih l'' hr n with hc | ⟨inst, h1, h2, h3, h4⟩
          · exact Or.inl hc
          · exact Or.inr ⟨inst, h1, h2,
              by rw [firstMatchStatus, if_neg ha]; exact h3, h4⟩

/-- Per-position effect of the `handle_instance_error` loop body. -/
theorem handleErrorAux_get? (id : Nat) (l l' : List ModelInstance)
    (h : handleErrorAux id l = some l') (i : Nat) :
    l'.get? i = l.get? i ∨
    ∃ inst, l.get? i = some inst ∧ inst.instance_id = id ∧
      firstMatchStatus id l = some inst.status ∧
      l'.get? i = some { inst with
        status := InstanceStatus.error
        error_count := inst.error_count + 1 } := by
  induction l generalizing l' i with
  | nil => simp [handleErrorAux] at h
  | cons a rest ih =>
    by_cases ha : a.instance_id = id
    · rw [handleErrorAux, if_pos ha] at h
      cases h
      cases i with
      | zero =>
        exact Or.inr ⟨a, rfl, ha, by rw [firstMatchStatus, if_pos ha], rfl⟩
      | succ n => exact Or.inl rfl
    · rw [handleErrorAux, if_neg ha] at h
      cases hr : handleErrorAux id rest with
      | none => rw [hr] at h; simp at h
      | some l'' =>
        rw [hr] at h
        simp only [Option.map_some'] at h
        cases h
        cases i with
        | zero => exact Or.inl rfl
        | succ n =>
          rcases ih l'' hr n with hc | ⟨inst, h1, h2, h3, h4⟩
          · exact Or.inl hc
          · exact Or.inr ⟨inst, h1, h2,
              by rw [firstMatchStatus, if_neg ha]; exact h3, h4⟩

/-- Per-position effect of an `Acquire` probe on statuses: every position
either keeps its status or becomes Busy. -/
theorem get_idle_instance_statusAt (now : Nat) (p : PoolState) (i : Nat) :
    statusAt (get_idle_instance now p).2 i = statusAt p i ∨
    statusAt (get_idle_instance now p).2 i = some InstanceStatus.busy := by
  unfold get_idle_instance
  cases hsel : selectIdle p.instances with
  | none => exact Or.inl rfl
  | some ki =>
    obtain ⟨k, inst⟩ := ki
    simp only [statusAt, List.get?_set]
    by_cases hki : k = i
    · rw [if_pos hki]
      cases hgi : p.instances.get? i with
      | none => exact Or.inl (by simp [hgi])
      | some a => exact Or.inr (by simp [hgi, mark_busy])
    · rw [if_neg hki]
      exact Or.inl rfl

/-- C6 counterexample: a single `Release` step applied to an instance in
ERROR status moves it directly to IDLE — the source `release_instance` has
no status guard — refuting the claim for arbitrary operation sequences. -/
theorem error_to_idle_single_step_cex :
    statusAt pErrBare 0 = some InstanceStatus.error ∧
    statusAt (applyRegOp pErrBare (RegOp.release 7 0)) 0 =
      some InstanceStatus.idle := by
  decide

/-- C6 (amended): `Acquire` alone never moves an instance between Idle and
Error; `Release` and `MarkFailed` carry no status guard in the source and
can (e.g. Error→Idle, see the counterexample), but under the dispatcher's
usage discipline — `Release`/`MarkFailed` only invoked on an id whose
matching instance is currently Busy — no single registry step takes any
instance from Error to Idle or from Idle to Error. -/
theorem no_direct_idle_error_step (p : PoolState) (op : RegOp)
    (hg : opGuard p op) (i : Nat) :
    ¬ (statusAt p i = some InstanceStatus.error ∧
        statusAt (applyRegOp p op) i = some InstanceStatus.idle) ∧
    ¬ (statusAt p i = some InstanceStatus.idle ∧
        statusAt (applyRegOp p op) i = some InstanceStatus.error) := by
  cases op with
  | acquire now =>
    rcases get_idle_instance_statusAt now p i with h | h <;>
      constructor <;> rintro ⟨h1, h2⟩ <;>
      rw [applyRegOp] at h2 <;> rw [h] at h2 <;> simp_all
  | release now id =>
    have happ : applyRegOp p (RegOp.release now id) =
        release_instance now id p := rfl
    rw [happ]
    unfold release_instance
    cases hr : releaseAux now id p.instances with
    | none =>
      constructor <;> rintro ⟨h1, h2⟩ <;> rw [h1] at h2 <;> simp at h2
    | some l' =>
      have hstep := releaseAux_get? now id p.instances l' hr i
      constructor <;> rintro ⟨h1, h2⟩
      · rcases hstep with hc | ⟨inst, hgi, hid, hfm, hni⟩
        · simp only [statusAt] at h1 h2
          rw [hc, h1] at h2; simp at h2
        · simp only [statusAt, hgi, Option.map_some'] at h1
          have hb := hg inst.status (by rw [hfm])
          rw [Option.some_inj.mp h1] at hb
          simp at hb
      · rcases hstep with hc | ⟨inst, hgi, hid, hfm, hni⟩
        · simp only [statusAt] at h1 h2
          rw [hc, h1] at h2; simp at h2
        · simp only [statusAt, hni, Option.map_some', mark_idle] at h2
          simp at h2
  | markFailed id =>
    have happ : applyRegOp p (RegOp.markFailed id) =
        handle_instance_error id p := rfl
    rw [happ]
    unfold handle_instance_error
    cases hr : handleErrorAux id p.instances with
    | none =>
      constructor <;> rintro ⟨h1, h2⟩ <;> rw [h1] at h2 <;> simp at h2
    | some l' =>
      have hstep := handleErrorAux_get? id p.instances l' hr i
      constructor <;> rintro ⟨h1, h2⟩
      · rcases hstep with hc | ⟨inst, hgi, hid, hfm, hni⟩
        · simp only [statusAt] at h1 h2
          rw [hc, h1] at h2; simp at h2
        · simp only [statusAt, hni, Option.map_some'] at h2
          simp at h2
      · rcases hstep with hc | ⟨inst, hgi, hid, hfm, hni⟩
        · simp only [statusAt] at h1 h2
          rw [hc, h1] at h2; simp at h2
        · simp only [statusAt, hgi, Option.map_some'] at h1
          have hb := hg inst.status (by rw [hfm])
          rw [Option.some_inj.mp h1] at hb
          simp at hb

/-- C6 witness: a guarded `Release` on the Busy instance of a concrete pool
triggers neither forbidden direct transition. -/
theorem no_direct_idle_error_step_witness :
    ¬ (statusAt pBusyOne 0 = some InstanceStatus.error ∧
        statusAt (applyRegOp pBusyOne (RegOp.release 9 0)) 0 =
          some InstanceStatus.idle) ∧
    ¬ (statusAt pBusyOne 0 = some InstanceStatus.idle ∧
        statusAt (applyRegOp pBusyOne (RegOp.release 9 0)) 0 =
          some InstanceStatus.error) :=
  no_direct_idle_error_step pBusyOne (RegOp.release 9 0)
    (by
      show ∀ st, firstMatchStatus 0 pBusyOne.instances = some st →
        st = InstanceStatus.busy
      decide) 0

/-- When the selection of `get_idle_instance` comes back empty, no instance
is idle. -/
theorem selectIdle_none_forward (l : List ModelInstance)
    (h : selectIdle l = none) :
    ∀ x ∈ l, x.status ≠ InstanceStatus.idle := by
  induction l with
  | nil => simp
  | cons a rest ih =>
    rw [selectIdle] at h
    cases hr : selectIdle rest with
    | none =>
      rw [hr] at h
      by_cases ha : a.status = InstanceStatus.idle
      · rw [if_pos ha] at h; simp at h
      · intro x hx
        rcases List.mem_cons.mp hx with rfl | hx
        · exact ha
        · exact ih hr x hx
    | some jb =>
      obtain ⟨j, best⟩ := jb
      rw [hr] at h
      by_cases ha : a.status = InstanceStatus.idle <;>
        by_cases hlt : best.last_used < a.last_used <;>
        simp [ha, hlt] at h

/-- When no instance is idle the selection comes back empty. -/
theorem selectIdle_eq_none_of (l : List ModelInstance)
    (h : ∀ x ∈ l, x.status ≠ InstanceStatus.idle) :
    selectIdle l = none := by
  induction l with
  | nil => rfl
  | cons a rest ih =>
    rw [selectIdle, ih fun x hx => h x (List.mem_cons_of_mem a hx),
      if_neg (h a (List.mem_cons_self a rest))]

/-- A successful selection returns a position holding an idle instance whose
`last_used` is minimal among all idle instances (the first such, matching
Python's `min`). -/
theorem selectIdle_some_spec (l : List ModelInstance) (k : Nat)
    (inst : ModelInstance) (h : selectIdle l = some (k, inst)) :
    l.get? k = some inst ∧ inst.status = InstanceStatus.idle ∧
    ∀ x ∈ l, x.status = InstanceStatus.idle →
      inst.last_used ≤ x.last_used := by
  induction l generalizing k inst with
  | nil => simp [selectIdle] at h
  | cons a rest ih =>
    rw [selectIdle] at h
    cases hr : selectIdle rest with
    | none =>
      rw [hr] at h
      by_cases ha : a.status = InstanceStatus.idle
      · rw [if_pos ha] at h
        injection h with h1
        injection h1 with hk hi
        subst hk; subst hi
        refine ⟨rfl, ha, ?_⟩
        intro x hx _
        rcases List.mem_cons.mp hx with rfl | hx
        · exact le_refl _
        · exact absurd ‹x.status = InstanceStatus.idle›
            (selectIdle_none_forward rest hr x hx)
      · rw [if_neg ha] at h; simp at h
    | some jb =>
      obtain ⟨j, best⟩ := jb
      rw [hr] at h
      dsimp only at h
      obtain ⟨hjget, hjidle, hjmin⟩ := ih j best hr
      by_cases ha : a.status = InstanceStatus.idle
      · rw [if_pos ha] at h
        by_cases hlt : best.last_used < a.last_used
        · rw [if_pos hlt] at h
          injection h with h1
          injection h1 with hk hi
          subst hk; subst hi
          refine ⟨by simpa using hjget, hjidle, ?_⟩
          intro x hx hxi
          rcases List.mem_cons.mp hx with rfl | hx
          · exact le_of_lt hlt
          · exact hjmin x hx hxi
        · rw [if_neg hlt] at h
          injection h with h1
          injection h1 with hk hi
          subst hk; subst hi
          refine ⟨rfl, ha, ?_⟩
          intro x hx hxi
          rcases List.mem_cons.mp hx with rfl | hx
          · exact le_refl _
          · exact le_trans (by omega) (hjmin x hx hxi)
      · rw [if_neg ha] at h
        injection h with h1
        injection h1 with hk hi
        subst hk; subst hi
        refine ⟨by simpa using hjget, hjidle, ?_⟩
        intro x hx hxi
        rcases List.mem_cons.mp hx with rfl | hx
        · exact absurd hxi ha
        · exact hjmin x hx hxi

/-- Replacing an idle instance by a non-idle one drops the idle count by
exactly one. -/
theorem filter_idle_set (l : List ModelInstance) (k : Nat)
    (a b : ModelInstance) (hk : l.get? k = some a)
    (ha : a.status = InstanceStatus.idle)
    (hb : b.status ≠ InstanceStatus.idle) :
    ((l.set k b).filter fun x =>
        x.status = InstanceStatus.idle).length + 1 =
      (l.filter fun x => x.status = InstanceStatus.idle).length := by
  induction l generalizing k with
  | nil => simp at hk
  | cons c rest ih =>
    cases k with
    | zero =>
      have hca : c = a := by simpa using hk
      subst hca
      simp [List.set, List.filter_cons, ha, hb]
    | succ n =>
      have hgn : rest.get? n = some a := by simpa using hk
      have := ih n hgn
      by_cases hc : c.status = InstanceStatus.idle <;>
        simp [List.set, List.filter_cons, hc] <;> omega

/-- C3: `get_idle_instance` returns empty iff no instance is Idle;
otherwise it returns an Idle instance with minimal `lastUsedAt` marked
Busy — its `request_count` incremented, `last_used` set to now — stores it
back at its position, increments `total_requests`, and drops the idle count
by one, so that a second immediate call with no other idle instance returns
empty. -/
theorem acquire_lru_spec (now : Nat) (p : PoolState) :
    ((get_idle_instance now p).1 = none ↔
      ∀ inst ∈ p.instances, inst.status ≠ InstanceStatus.idle) ∧
    ((get_idle_instance now p).1 = none →
      (get_idle_instance now p).2 = p) ∧
    (∀ inst', (get_idle_instance now p).1 = some inst' →
      ∃ k sel, p.instances.get? k = some sel ∧
        sel.status = InstanceStatus.idle ∧
        (∀ x ∈ p.instances, x.status = InstanceStatus.idle →
          sel.last_used ≤ x.last_used) ∧
        inst' = mark_busy now sel ∧
        inst'.status = InstanceStatus.busy ∧
        inst'.request_count = sel.request_count + 1 ∧
        inst'.last_used = now ∧
        (get_idle_instance now p).2.instances = p.instances.set k inst' ∧
        (get_idle_instance now p).2.total_requests =
          p.total_requests + 1 ∧
        ((get_idle_instance now p).2.instances.filter fun x =>
            x.status = InstanceStatus.idle).length + 1 =
          (p.instances.filter fun x =>
            x.status = InstanceStatus.idle).length) ∧
    (∀ inst' now2,
      (p.instances.filter fun x =>
        x.status = InstanceStatus.idle).length = 1 →
      (get_idle_instance now p).1 = some inst' →
      (get_idle_instance now2 (get_idle_instance now p).2).1 = none) := by
  cases hsel : selectIdle p.instances with
  | none =>
    have hresult : get_idle_instance now p = (none, p) := by
      rw [get_idle_instance, hsel]
    rw [hresult]
    refine ⟨iff_of_true rfl (selectIdle_none_forward _ hsel),
      fun _ => rfl, fun inst' h => by simp at h,
      fun inst' now2 _ h => by simp at h⟩
  | some ki =>
    obtain ⟨k, sel⟩ := ki
    obtain ⟨hget, hidle, hmin⟩ := selectIdle_some_spec _ _ _ hsel
    have hresult : get_idle_instance now p =
        (some (mark_busy now sel),
          { p with
              instances := p.instances.set k (mark_busy now sel)
              total_requests := p.total_requests + 1 }) := by
      rw [get_idle_instance, hsel]
    rw [hresult]
    have hcount : (((p.instances.set k (mark_busy now sel)).filter fun x =>
        x.status = InstanceStatus.idle).length) + 1 =
        (p.instances.filter fun x =>
          x.status = InstanceStatus.idle).length :=
      filter_idle_set p.instances k sel (mark_busy now sel) hget hidle
        (by simp [mark_busy])
    refine ⟨iff_of_false (by simp)
        (fun hall => hall sel (List.get?_mem hget) hidle),
      fun h => by simp at h, ?_, ?_⟩
    · intro inst' h
      have hinst : inst' = mark_busy now sel := by
        simpa using h.symm
      subst hinst
      exact ⟨k, sel, hget, hidle, hmin, rfl, rfl, rfl, rfl, rfl, rfl,
        hcount⟩
    · intro inst' now2 hone _
      have hzero : (((p.instances.set k (mark_busy now sel)).filter fun x =>
          x.status = InstanceStatus.idle).length) = 0 := by omega
      have hnil : ((p.instances.set k (mark_busy now sel)).filter fun x =>
          x.status = InstanceStatus.idle) = [] :=
        List.length_eq_zero.mp hzero
      have hnone : ∀ x ∈ p.instances.set k (mark_busy now sel),
          x.status ≠ InstanceStatus.idle := by
        intro x hx
        have := List.filter_eq_nil.mp hnil x hx
        simpa using this
      show (get_idle_instance now2 _).1 = none
      rw [get_idle_instance, selectIdle_eq_none_of _ hnone]

/-- C3 witness: on the concrete pool with A busy and only B idle, an
acquire followed by a second immediate acquire leaves the second call
empty-handed. -/
theorem acquire_lru_spec_witness :
    (get_idle_instance 21 (get_idle_instance 20 pABusy).2).1 = none :=
  (acquire_lru_spec 20 pABusy).2.2.2 (mark_busy 20 instB) 21
    (by decide) (by decide)

/-- Setting a position to the value it already holds is the identity. -/
theorem set_get?_eq_self {α : Type _} (l : List α) (k : Nat) (a : α)
    (h : l.get? k = some a) : l.set k a = l := by
  induction l generalizing k with
  | nil => rfl
  | cons c rest ih =>
    cases k with
    | zero =>
      have : c = a := by simpa using h
      subst this; rfl
    | succ n =>
      have : rest.get? n = some a := by simpa using h
      simp [List.set, ih n this]

/-- Overwriting a position with an instance of the same id leaves the id
list unchanged. -/
theorem map_id_set (l : List ModelInstance) (k : Nat)
    (a b : ModelInstance) (hk : l.get? k = some a)
    (hab : b.instance_id = a.instance_id) :
    (l.set k b).map (fun x => x.instance_id) =
      l.map fun x => x.instance_id := by
  rw [List.map_set]
  apply set_get?_eq_self
  rw [List.get?_map, hk]
  simp [hab]

/-- With distinct instance ids, `handle_instance_error`'s loop marks
exactly the position holding the matching instance. -/
theorem handleErrorAux_nodup (id : Nat) (l : List ModelInstance) (k : Nat)
    (a : ModelInstance) (hk : l.get? k = some a) (ha : a.instance_id = id)
    (hnd : (l.map fun x => x.instance_id).Nodup) :
    handleErrorAux id l = some (l.set k { a with
      status := InstanceStatus.error
      error_count := a.error_count + 1 }) := by
  induction l generalizing k with
  | nil => simp at hk
  | cons c rest ih =>
    cases k with
    | zero =>
      have : c = a := by simpa using hk
      subst this
      rw [handleErrorAux, if_pos ha]
      rfl
    | succ n =>
      have hgn : rest.get? n = some a := by simpa using hk
      have hmem : a ∈ rest := List.get?_mem hgn
      rw [List.map_cons, List.nodup_cons] at hnd
      have hc : ¬ c.instance_id = id := by
        intro hcid
        apply hnd.1
        have hmm : a.instance_id ∈ rest.map fun x => x.instance_id :=
          List.mem_map_of_mem _ hmem
        rw [ha] at hmm
        rw [hcid]
        exact hmm
      rw [handleErrorAux, if_neg hc, ih n hgn hnd.2]
      rfl

/-- With distinct ids, two positions holding the same id coincide. -/
theorem get?_id_inj (l : List ModelInstance)
    (hnd : (l.map fun x => x.instance_id).Nodup) (i j : Nat)
    (a b : ModelInstance) (hi : l.get? i = some a) (hj : l.get? j = some b)
    (hab : a.instance_id = b.instance_id) : i = j := by
  have hilen : i < (l.map fun x => x.instance_id).length := by
    rw [List.length_map]
    rcases List.get?_eq_some.mp hi with ⟨h, _⟩
    exact h
  apply List.get?_inj hilen hnd
  rw [List.get?_map, List.get?_map, hi, hj]
  simp [hab]

/-- C4: when the inference call for an acquired instance fails, the task is
not failed: the loop recurses on the same task after
`handle_instance_error`; that call marks exactly the acquired instance
ERROR (bumping its `error_count` and the pool `failed_requests`); a
subsequent acquire can never hand back the failed instance id; and after
any number of consecutive non-success iterations the task's channel is
still unresolved — there is no maximum retry count. -/
theorem inference_failure_retries (now : Nat) (p : PoolState)
    (taskId : Nat) (text : String) (rest : List Bool)
    (inst : ModelInstance) (p₁ : PoolState)
    (hnd : (p.instances.map fun x => x.instance_id).Nodup)
    (hacq : get_idle_instance now p = (some inst, p₁)) :
    (processQueuedTask taskId text (false :: rest) now p =
      { processQueuedTask taskId text rest (now + 2)
          (handle_instance_error inst.instance_id p₁) with
        trace := DispatchEvent.attemptEv taskId ::
          (processQueuedTask taskId text rest (now + 2)
            (handle_instance_error inst.instance_id p₁)).trace }) ∧
    (∃ k sel, p.instances.get? k = some sel ∧
      inst = mark_busy now sel ∧
      (handle_instance_error inst.instance_id p₁).instances.get? k =
        some { sel with
                status := InstanceStatus.error
                error_count := sel.error_count + 1
                request_count := sel.request_count + 1
                last_used := now } ∧
      (handle_instance_error inst.instance_id p₁).failed_requests =
        p.failed_requests + 1) ∧
    (∀ now2 inst₂ p₃,
      get_idle_instance now2 (handle_instance_error inst.instance_id p₁) =
        (some inst₂, p₃) → inst₂.instance_id ≠ inst.instance_id) ∧
    (∀ n now0 p0,
      (processQueuedTask taskId text
        (List.replicate n false) now0 p0).result = none) := by
  cases hsel : selectIdle p.instances with
  | none =>
    rw [get_idle_instance, hsel] at hacq
    simp at hacq
  | some ki =>
    obtain ⟨k, sel⟩ := ki
    rw [get_idle_instance, hsel] at hacq
    dsimp only at hacq
    have hinst : mark_busy now sel = inst := by
      have hfst := congrArg Prod.fst hacq
      simpa using hfst
    have hp₁ : { p with
        instances := p.instances.set k (mark_busy now sel)
        total_requests := p.total_requests + 1 } = p₁ :=
      congrArg Prod.snd hacq
    subst hp₁
    subst hinst
    obtain ⟨hget, hidle, hmin⟩ := selectIdle_some_spec _ _ _ hsel
    have hklen : k < p.instances.length := by
      rcases List.get?_eq_some.mp hget with ⟨h, _⟩
      exact h
    have hbusyid : (mark_busy now sel).instance_id = sel.instance_id := rfl
    have hget₁ : (p.instances.set k (mark_busy now sel)).get? k =
        some (mark_busy now sel) := by
      rw [List.get?_set, if_pos rfl, hget]
      rfl
    have hnd₁ : ((p.instances.set k (mark_busy now sel)).map
        fun x => x.instance_id).Nodup := by
      rw [map_id_set p.instances k sel _ hget hbusyid]
      exact hnd
    have hhe := handleErrorAux_nodup (mark_busy now sel).instance_id
      (p.instances.set k (mark_busy now sel)) k (mark_busy now sel)
      hget₁ rfl hnd₁
    have hherr : handle_instance_error (mark_busy now sel).instance_id
        { p with
            instances := p.instances.set k (mark_busy now sel)
            total_requests := p.total_requests + 1 } =
        { p with
            instances := p.instances.set k { sel with
              status := InstanceStatus.error
              error_count := sel.error_count + 1
              request_count := sel.request_count + 1
              last_used := now }
            total_requests := p.total_requests + 1
            failed_requests := p.failed_requests + 1 } := by
      rw [handle_instance_error]
      dsimp only
      rw [hhe]
      rw [List.set_set]
      rfl
    refine ⟨?_, ?_, ?_, ?_⟩
    · rw [processQueuedTask]
      have hat : attempt now false text p =
          AttemptResult.failed (mark_busy now sel).instance_id
            (handle_instance_error (mark_busy now sel).instance_id
              { p with
                  instances := p.instances.set k (mark_busy now sel)
                  total_requests := p.total_requests + 1 }) := by
        rw [attempt, get_idle_instance, hsel]
        rfl
      rw [hat]
    · refine ⟨k, sel, hget, rfl, ?_, ?_⟩
      · rw [hherr]
        rw [List.get?_set, if_pos rfl, hget]
        rfl
      · rw [hherr]
    · intro now2 inst₂ p₃ hacq2 hideq
      rw [hherr] at hacq2
      set marked : ModelInstance := { sel with
        status := InstanceStatus.error
        error_count := sel.error_count + 1
        request_count := sel.request_count + 1
        last_used := now } with hmarked
      cases hsel₂ : selectIdle (p.instances.set k marked) with
      | none =>
        rw [get_idle_instance, hsel₂] at hacq2
        simp at hacq2
      | some ki₂ =>
        obtain ⟨k₂, sel₂⟩ := ki₂
        rw [get_idle_instance, hsel₂] at hacq2
        dsimp only at hacq2
        have hinst₂ : mark_busy now2 sel₂ = inst₂ := by
          have hfst := congrArg Prod.fst hacq2
          simpa using hfst
        obtain ⟨hget₂, hidle₂, _⟩ := selectIdle_some_spec _ _ _ hsel₂
        have hndm : ((p.instances.set k marked).map
            fun x => x.instance_id).Nodup := by
          rw [map_id_set p.instances k sel marked hget (by rw [hmarked])]
          exact hnd
        have hmget : (p.instances.set k marked).get? k = some marked := by
          rw [List.get?_set, if_pos rfl, hget]
          rfl
        have hideq' : sel₂.instance_id = marked.instance_id := by
          have h1 : inst₂.instance_id = sel₂.instance_id := by
            rw [← hinst₂]; rfl
          have h2 : (mark_busy now sel).instance_id = marked.instance_id :=
            rfl
          rw [h1, h2] at hideq
          exact hideq
        have hkk : k₂ = k :=
          get?_id_inj _ hndm k₂ k sel₂ marked hget₂ hmget hideq'
        rw [hkk, hmget] at hget₂
        have : marked = sel₂ := by simpa using hget₂
        rw [← this] at hidle₂
        simp [hmarked] at hidle₂
    · intro n
      induction n with
      | zero => intro now0 p0; rfl
      | succ m ihm =>
        intro now0 p0
        rw [List.replicate_succ, processQueuedTask]
        rcases hgi : get_idle_instance now0 p0 with ⟨o, p'⟩
        cases o with
        | none =>
          have hat : attempt now0 false text p0 =
              AttemptResult.noInstance p' := by
            rw [attempt, hgi]
          rw [hat]
          exact ihm _ _
        | some i =>
          have hat : attempt now0 false text p0 =
              AttemptResult.failed i.instance_id
                (handle_instance_error i.instance_id p') := by
            rw [attempt, hgi]
            rfl
          rw [hat]
          exact ihm _ _

/-- C4 witness: on the LRU example pool an inference failure leaves the
task unresolved after three all-failing iterations. -/
theorem inference_failure_retries_witness :
    (processQueuedTask 7 "txt" (List.replicate 3 false) 0 pAB).result =
      none :=
  (inference_failure_retries 20 pAB 7 "txt" [] (mark_busy 20 instB)
    { instances := [instA, mark_busy 20 instB]
      num_instances := 2
      total_requests := 1
      successful_requests := 0
      failed_requests := 0 }
    (by decide) (by decide)).2.2.2 3 0 pAB

/-- One admission or dispatch step preserves the queue invariant. -/
theorem applySysOp_inv (s : SysState) (op : SysOp) (h : SysInv s) :
    SysInv (applySysOp s op) := by
  obtain ⟨h1, h2, h3, h4, h5⟩ := h
  cases op with
  | enq =>
    show SysInv (enqueue_task s).1
    by_cases hfull : s.task_queue.length ≥ s.queue_capacity
    · rw [enqueue_task, if_pos hfull]
      refine ⟨?_, h2, ?_, ?_, ?_⟩
      · simp only [resolvedIds, List.map_append]
        rw [List.nodup_append]
        refine ⟨h1, List.nodup_singleton _, ?_⟩
        intro x hx
        simp only [List.map_cons, List.map_nil, List.mem_singleton]
        intro hx1
        subst hx1
        exact absurd (h5 _ hx) (lt_irrefl _)
      · intro id hid
        simp only [resolvedIds, List.map_append, List.mem_append]
        rintro (hin | hin)
        · exact h3 id hid hin
        · simp at hin
          subst hin
          exact absurd (h4 _ hid) (lt_irrefl _)
      · intro id hid
        exact Nat.lt_succ_of_lt (h4 id hid)
      · intro id hid
        simp only [resolvedIds, List.map_append, List.mem_append] at hid
        rcases hid with hin | hin
        · exact Nat.lt_succ_of_lt (h5 id hin)
        · simp at hin
          subst hin
          exact Nat.lt_succ_self _
    · rw [enqueue_task, if_neg hfull]
      refine ⟨h1, ?_, ?_, ?_, ?_⟩
      · rw [List.nodup_append]
        refine ⟨h2, List.nodup_singleton _, ?_⟩
        intro x hx
        simp only [List.mem_singleton]
        intro hx1
        subst hx1
        exact absurd (h4 _ hx) (lt_irrefl _)
      · intro id hid
        simp only [List.mem_append] at hid
        rcases hid with hin | hin
        · exact h3 id hin
        · simp at hin
          subst hin
          intro hmem
          exact absurd (h5 _ hmem) (lt_irrefl _)
      · intro id hid
        simp only [List.mem_append] at hid
        rcases hid with hin | hin
        · exact Nat.lt_succ_of_lt (h4 id hin)
        · simp at hin
          subst hin
          exact Nat.lt_succ_self _
      · intro id hid
        exact Nat.lt_succ_of_lt (h5 id hid)
  | disp ok =>
    show SysInv (dispatchOne ok s)
    cases hq : s.task_queue with
    | nil =>
      have hsame : dispatchOne ok s = s := by rw [dispatchOne, hq]
      rw [hsame]
      exact ⟨h1, h2, h3, h4, h5⟩
    | cons id0 rest =>
      have hds : dispatchOne ok s = { s with
          task_queue := rest
          resolutions := s.resolutions ++ [(id0,
            if ok then Resolution.success "" else Resolution.procFailure)] } := by
        rw [dispatchOne, hq]
      rw [hds]
      rw [hq] at h2 h3 h4
      have h2' := List.nodup_cons.mp h2
      refine ⟨?_, h2'.2, ?_, ?_, ?_⟩
      · simp only [resolvedIds, List.map_append]
        rw [List.nodup_append]
        refine ⟨h1, by simp, ?_⟩
        intro x hx
        simp only [List.map_cons, List.map_nil, List.mem_singleton]
        intro hx1
        subst hx1
        exact h3 x (List.mem_cons_self _ _) hx
      · intro id hid
        simp only [resolvedIds, List.map_append, List.mem_append]
        rintro (hin | hin)
        · exact h3 id (List.mem_cons_of_mem _ hid) hin
        · simp at hin
          subst hin
          exact h2'.1 hid
      · intro id hid
        exact h4 id (List.mem_cons_of_mem _ hid)
      · intro id hid
        simp only [resolvedIds, List.map_append, List.mem_append] at hid
        rcases hid with hin | hin
        · exact h5 id hin
        · simp at hin
          subst hin
          exact h4 id (List.mem_cons_self _ _)

/-- Any sequence of admission/dispatch steps preserves the invariant. -/
theorem runOps_inv (ops : List SysOp) (s : SysState) (h : SysInv s) :
    SysInv (runOps s ops) := by
  induction ops generalizing s with
  | nil => exact h
  | cons op rest ih => exact ih _ (applySysOp_inv s op h)

/-- C8: starting from the fresh system, over every sequence of enqueue and
dispatch operations no task's result channel is resolved more than once —
the resolution log holds each task id at most once — and no still-queued
task has been resolved. -/
theorem tasks_resolved_at_most_once (n : Nat) (devices : List String)
    (cap : Nat) (ops : List SysOp) :
    (resolvedIds (runOps (initSys n devices cap) ops)).Nodup ∧
    ∀ id ∈ (runOps (initSys n devices cap) ops).task_queue,
      id ∉ resolvedIds (runOps (initSys n devices cap) ops) := by
  have hinit : SysInv (initSys n devices cap) := by
    refine ⟨?_, ?_, ?_, ?_, ?_⟩ <;> simp [initSys, resolvedIds]
  have h := runOps_inv ops (initSys n devices cap) hinit
  exact ⟨h.1, h.2.2.1⟩

/-- C8 witness: after two admissions and one dispatch, the still-queued
task id 1 is unresolved and the resolution log is duplicate-free. -/
theorem tasks_resolved_at_most_once_witness :
    1 ∉ resolvedIds (runOps (initSys 1 ["cpu"] 5)
      [SysOp.enq, SysOp.enq, SysOp.disp true]) :=
  (tasks_resolved_at_most_once 1 ["cpu"] 5
    [SysOp.enq, SysOp.enq, SysOp.disp true]).2 1 (by decide)

/-- Every finite run of the `_process_queued_task` retry loop emits only
acquire-attempt events of its own task. -/
theorem processQueuedTask_trace (taskId : Nat) (text : String)
    (script : List Bool) (now : Nat) (p : PoolState) :
    ∃ m, (processQueuedTask taskId text script now p).trace =
      List.replicate m (DispatchEvent.attemptEv taskId) := by
  induction script generalizing now p with
  | nil => exact ⟨0, rfl⟩
  | cons b rest ih =>
    rw [processQueuedTask]
    cases hat : attempt now b text p with
    | noInstance p' =>
      obtain ⟨m, hm⟩ := ih (now + 2) p'
      exact ⟨m + 1, by simp [hm, List.replicate_succ]⟩
    | failed i p' =>
      obtain ⟨m, hm⟩ := ih (now + 2) p'
      exact ⟨m + 1, by simp [hm, List.replicate_succ]⟩
    | succeeded t p' => exact ⟨1, rfl⟩

/-- C5: the dispatcher services admitted tasks strictly in FIFO order and
one at a time: its event trace decomposes into per-task blocks in queue
order — a task's acquire attempts never start before every earlier task's
resolution — and the resolved tasks form, in order, an initial segment of
the admission queue. -/
theorem dispatcher_serial_fifo (scripts : Nat → List Bool)
    (texts : Nat → String) (q : List Nat) (now : Nat) (p : PoolState) :
    SerialFIFO q (processQueue scripts texts q now p).trace ∧
    (processQueue scripts texts q now p).resolved.map Prod.fst =
      q.take (processQueue scripts texts q now p).resolved.length := by
  induction q generalizing now p with
  | nil => exact ⟨SerialFIFO.empty [], rfl⟩
  | cons id rest ih =>
    obtain ⟨m, hm⟩ :=
      processQueuedTask_trace id (texts id) (scripts id) now p
    cases hres :
        (processQueuedTask id (texts id) (scripts id) now p).result with
    | none =>
      have htr : (processQueue scripts texts (id :: rest) now p).trace =
          (processQueuedTask id (texts id) (scripts id) now p).trace := by
        simp only [processQueue, hres]
      have hrv : (processQueue scripts texts (id :: rest) now p).resolved =
          [] := by
        simp only [processQueue, hres]
      refine ⟨?_, ?_⟩
      · rw [htr, hm]
        exact SerialFIFO.unfinished id rest m
      · rw [hrv]
        rfl
    | some t =>
      obtain ⟨ih1, ih2⟩ := ih
        (processQueuedTask id (texts id) (scripts id) now p).clock
        (processQueuedTask id (texts id) (scripts id) now p).pool
      have htr : (processQueue scripts texts (id :: rest) now p).trace =
          (processQueuedTask id (texts id) (scripts id) now p).trace ++
            DispatchEvent.resolveEv id ::
              (processQueue scripts texts rest
                (processQueuedTask id (texts id) (scripts id) now p).clock
                (processQueuedTask id (texts id) (scripts id) now
                  p).pool).trace := by
        simp only [processQueue, hres]
      have hrv : (processQueue scripts texts (id :: rest) now p).resolved =
          (id, Resolution.success t) ::
            (processQueue scripts texts rest
              (processQueuedTask id (texts id) (scripts id) now p).clock
              (processQueuedTask id (texts id) (scripts id) now
                p).pool).resolved := by
        simp only [processQueue, hres]
      refine ⟨?_, ?_⟩
      · rw [htr, hm]
        exact SerialFIFO.step id rest m _ ih1
      · rw [hrv]
        simp only [List.map_cons, List.length_cons, List.take_succ_cons]
        rw [ih2]

end ModelPool
